import Mathlib

/-!
Verification of the batch order-creation tool (Express/TypeScript server).
The definitions below are shallow embeddings of the server code:
routes (unnamed part 001), storage.ts and shopify.ts. Machine arithmetic on
progress percentages is embedded over Nat with explicit JS rounding.
-/

namespace OrderTool

/-- JS `Math.round((a / n) * 100)` for nonnegative `a / n`, embedded exactly
over the rationals: `round(x) = floor(x + 1/2)`, so
`round(100 * a / n) = (200 * a + n) / (2 * n)` in natural division. -/
def jsRound100 (a n : Nat) : Nat := (200 * a + n) / (2 * n)

/-- JS `String.prototype.includes`: `s` has `sub` as a substring. -/
def jsIncludes (s sub : String) : Bool := decide (sub.data <:+: s.data)

/-- JS `String.prototype.trim`: drop whitespace from both ends. -/
def jsTrim (st : String) : String :=
  ⟨((st.data.dropWhile Char.isWhitespace).reverse.dropWhile Char.isWhitespace).reverse⟩

/-- JS truthiness of an optional string value: an absent value and the
empty string are falsy, every other string is truthy. -/
def strTruthy : Option String → Bool
  | some s => decide (¬ s = "")
  | none => false

/-- Status reconciliation at the end of POST /api/orders/create
(routes, lines 816-845): from the requested count, the number of
succeeded and failed orders and the cancellation flag, compute the
final batch status and the optional error message. -/
def reconcile (requested succeeded failed : Nat) (cancelled : Bool) :
    String × Option String :=
  if cancelled then
    if succeeded = 0 then
      ("failed", some "Cancelled by user")
    else
      ("partial", some ("Cancelled by user - " ++ toString succeeded ++ " of "
        ++ toString requested ++ " orders created"))
  else if 0 < failed then
    if succeeded = 0 then
      ("failed", some "All orders failed to create")
    else if succeeded < requested then
      ("partial", some (toString succeeded ++ " of " ++ toString requested
        ++ " orders created successfully"))
    else
      ("completed", none)
  else
    ("completed", none)

/-- A per-order entry of the batch result list: either a success record
carrying the remote order id, or the failure record
`{error: true, message, orderIndex}` built in the per-order catch. -/
inductive OrderResult where
  | success (orderId : Nat)
  | failure (message : String) (orderIndex : Nat)
deriving DecidableEq, Repr

/-- Whether a result entry is a failure entry (`order.error` is truthy). -/
def OrderResult.isErr : OrderResult → Bool
  | .failure _ _ => true
  | .success _ => false

/-- One order task of a wave (routes, lines 766-799): the remote
create-order call for 0-based index `i` is modelled by the oracle `o`;
a throw is caught and converted into a failure entry with the 1-based
order index. -/
def mkOrderResult (o : Nat → Except String Nat) (i : Nat) : OrderResult :=
  match o i with
  | .ok oid => .success oid
  | .error m =>
      .failure ("Failed to create order " ++ toString (i + 1) ++ ": " ++ m) (i + 1)

/-- The settled results of one wave covering 0-based indices
`[lo, hi)` (routes, lines 764-806: the promises of the wave are all
awaited; each settles independently through its own catch). -/
def waveResults (o : Nat → Except String Nat) (lo hi : Nat) : List OrderResult :=
  (List.range (hi - lo)).map fun j => mkOrderResult o (lo + j)

/-- The wave loop of POST /api/orders/create (routes, lines 753-813),
starting at wave index `k` (`batchStart = k * 10`, `BATCH_SIZE = 10`).
Before each wave the batch record is re-read; `cancelSeen k` tells
whether that read observes the cancellation sentinel
(status failed with message Cancelled by user), in which case the loop
breaks. Returns the accumulated result list and the list of progress
values persisted after each wave,
`Math.round(batchEnd / orderCount * 100)`. -/
def runWavesFrom (n : Nat) (o : Nat → Except String Nat) (cancelSeen : Nat → Bool)
    (k : Nat) : List OrderResult × List Nat :=
  if _h : k * 10 < n then
    if cancelSeen k then ([], [])
    else
      let hi := min (k * 10 + 10) n
      let rest := runWavesFrom n o cancelSeen (k + 1)
      (waveResults o (k * 10) hi ++ rest.1, jsRound100 hi n :: rest.2)
  else ([], [])
termination_by n - k * 10
decreasing_by omega

/-- The whole wave loop, from the first wave. -/
def runWaves (n : Nat) (o : Nat → Except String Nat) (cancelSeen : Nat → Bool) :
    List OrderResult × List Nat :=
  runWavesFrom n o cancelSeen 0

/-- Cancellation oracle for a run where the cancellation write lands
during wave `w`: the re-read before wave `k` observes the sentinel
exactly when `w < k`. -/
def cancelAfter (w : Nat) : Nat → Bool := fun k => decide (w < k)

/-- Cancellation oracle for a run during which no cancel request is made. -/
def noCancel : Nat → Bool := fun _ => false

/-- Number of waves for `n` orders at width 10. -/
def waveCount (n : Nat) : Nat := (n + 9) / 10

/-- Size of each wave, in order. -/
def waveSizes (n : Nat) : List Nat :=
  (List.range (waveCount n)).map fun k => min (k * 10 + 10) n - k * 10

/-- The orchestrator oracle for the spec scenario of ten orders in which
only the seventh (1-based) throws. -/
def throwAt7 : Nat → Except String Nat :=
  fun i => if i = 6 then Except.error "Network error" else Except.ok (1000 + i)

/-- An oracle under which every create-order call succeeds. -/
def allOk : Nat → Except String Nat := fun i => Except.ok (1000 + i)

/-- A row of the order_batches table (shared/schema.ts, lines 24-35).
Timestamps are modelled as natural numbers. -/
structure OrderBatch where
  id : Nat
  batchId : String
  configurationId : Option Nat
  orderCount : Nat
  status : String
  progress : Nat
  errorMessage : Option String
  createdOrders : Option (List OrderResult)
  createdAt : Nat
  completedAt : Option Nat
deriving DecidableEq, Repr

/-- storage updateOrderBatchProgress (storage.ts, lines 112-122 and
202-208): build an updates object holding `progress`, add `status` only
when that argument is truthy, and merge it over the existing record. -/
def updateOrderBatchProgress (b : OrderBatch) (progress : Nat)
    (status : Option String) : OrderBatch :=
  { b with
    progress := progress,
    status := if strTruthy status then status.getD b.status else b.status }

/-- DatabaseStorage completeOrderBatch (storage.ts, lines 210-224):
set status (the argument if truthy, else failed when an error message is
given, else completed), progress 100, completedAt, createdOrders, and
errorMessage only when that argument is truthy. -/
def completeOrderBatch (b : OrderBatch) (createdOrders : List OrderResult)
    (errorMessage : Option String) (status : Option String) (now : Nat) : OrderBatch :=
  { b with
    status := if strTruthy status then status.getD b.status
              else if strTruthy errorMessage then "failed" else "completed",
    progress := 100,
    completedAt := some now,
    createdOrders := some createdOrders,
    errorMessage := if strTruthy errorMessage then errorMessage else b.errorMessage }

/-- The cancellation write of POST /api/orders/cancel (routes, line
1283): merge status failed and the sentinel error message over the
batch record, touching nothing else. -/
def cancelOrderBatch (b : OrderBatch) : OrderBatch :=
  { b with status := "failed", errorMessage := some "Cancelled by user" }

/-- A concrete batch record mid-run: processing, progress 40. -/
def sampleBatch : OrderBatch :=
  { id := 1, batchId := "batch-1", configurationId := some 4, orderCount := 25,
    status := "processing", progress := 40, errorMessage := none,
    createdOrders := none, createdAt := 0, completedAt := none }

/-- The fields accepted by insertOrderBatchSchema
(shared/schema.ts, lines 61-70): id, createdAt, completedAt and progress
are omitted; unknown keys are stripped by validation. -/
structure InsertOrderBatch where
  batchId : String
  configurationId : Option Nat
  orderCount : Nat
  status : String
  errorMessage : Option String
  createdOrders : Option (List OrderResult)
deriving DecidableEq, Repr

/-- A raw POST /api/batches request body: every field optional,
including fields the schema does not accept. -/
structure BatchRequestBody where
  batchId : Option String
  configurationId : Option Nat
  orderCount : Option Nat
  status : Option String
  errorMessage : Option String
  createdOrders : Option (List OrderResult)
  progress : Option Nat
  completedAt : Option Nat
deriving DecidableEq, Repr

/-- The destructuring `const \x7b progress, ...batchData \x7d = req.body` of
POST /api/batches (routes.ts, lines 138-139). -/
def stripProgress (b : BatchRequestBody) : BatchRequestBody :=
  { b with progress := none }

/-- The five batch statuses of the insert schema enum. -/
def statusEnum : List String :=
  ["pending", "processing", "completed", "failed", "partial"]

/-- Zod validation through insertOrderBatchSchema: batchId a non-empty
string, orderCount in [1, 30000], status in the enum; progress and
completedAt are not part of the schema and are dropped. -/
def parseInsertOrderBatch (b : BatchRequestBody) : Option InsertOrderBatch :=
  match b.batchId, b.orderCount, b.status with
  | some bid, some cnt, some st =>
      if 1 ≤ bid.length ∧ 1 ≤ cnt ∧ cnt ≤ 30000 ∧ st ∈ statusEnum then
        some { batchId := bid, configurationId := b.configurationId,
               orderCount := cnt, status := st, errorMessage := b.errorMessage,
               createdOrders := b.createdOrders }
      else none
  | _, _, _ => none

/-- MemStorage createOrderBatch (storage.ts, lines 74-87): spread the
insert record, then set id, createdAt, completedAt null, progress 0,
errorMessage null and createdOrders null, the explicit fields winning
over the spread. -/
def memCreateOrderBatch (ins : InsertOrderBatch) (nid now : Nat) : OrderBatch :=
  { id := nid, batchId := ins.batchId, configurationId := ins.configurationId,
    orderCount := ins.orderCount, status := ins.status, createdAt := now,
    completedAt := none, progress := 0, errorMessage := none, createdOrders := none }

/-- POST /api/batches (routes.ts, lines 136-150): strip the progress
field, validate, then create the batch. -/
def postBatches (body : BatchRequestBody) (nid now : Nat) : Option OrderBatch :=
  (parseInsertOrderBatch (stripProgress body)).map fun ins =>
    memCreateOrderBatch ins nid now

/-- A request body trying to create a batch already partway done and
already carrying results. -/
def dirtyBody : BatchRequestBody :=
  { batchId := some "batch-9", configurationId := none, orderCount := some 3,
    status := some "pending", errorMessage := some "boom",
    createdOrders := some [OrderResult.success 11], progress := some 55,
    completedAt := some 7 }

/-- The insert record surviving validation of `dirtyBody`. -/
def dirtyIns : InsertOrderBatch :=
  { batchId := "batch-9", configurationId := none, orderCount := 3,
    status := "pending", errorMessage := some "boom",
    createdOrders := some [OrderResult.success 11] }

/-- Result shape of ShopifyAPI deleteOrder. -/
structure DeleteResult where
  success : Bool
  message : String
deriving DecidableEq, Repr

/-- Outcomes of the three remote requests deleteOrder can make: the
existence pre-check GET, the DELETE itself, and the verification GET.
An error value is the thrown message. -/
structure RemoteOrderEnv where
  precheckGet : Except String Unit
  deleteReq : Except String Unit
  verifyGet : Except String Unit

/-- Body of the outer try of ShopifyAPI deleteOrder (shopify.ts, lines
418-464): reject an empty id; a failing pre-check GET means the order
is already gone and is a success; a throwing DELETE is rethrown; after
a DELETE, a verification GET that still finds the order is a failure,
and one that throws confirms deletion. -/
def deleteOrderInner (orderId : String) (env : RemoteOrderEnv) :
    Except String DeleteResult :=
  if jsTrim orderId = "" then Except.error "Invalid order ID provided"
  else
    match env.precheckGet with
    | Except.error _ => Except.ok ⟨true, "Order not found or already deleted"⟩
    | Except.ok _ =>
        match env.deleteReq with
        | Except.error e => Except.error e
        | Except.ok _ =>
            match env.verifyGet with
            | Except.ok _ =>
                Except.ok ⟨false, "Order deletion may have failed - order still exists"⟩
            | Except.error _ =>
                Except.ok ⟨true, "Order successfully deleted from Shopify"⟩

/-- ShopifyAPI deleteOrder (shopify.ts, lines 417-483), outer catch
included: a caught error whose message includes 404 is treated as
already deleted and a success; one including 403 becomes a permission
error; anything else is wrapped and rethrown. -/
def deleteOrder (orderId : String) (env : RemoteOrderEnv) :
    Except String DeleteResult :=
  match deleteOrderInner orderId env with
  | Except.ok r => Except.ok r
  | Except.error msg =>
      if jsIncludes msg "404" then Except.ok ⟨true, "Order was already deleted"⟩
      else if jsIncludes msg "403" then
        Except.error ("Permission denied - cannot delete order " ++ orderId
          ++ ". Check API permissions.")
      else
        Except.error ("Failed to delete order " ++ orderId ++ " from Shopify: " ++ msg)

/-- Remote environment where the pre-check GET already fails: the order
is gone before the DELETE is attempted. -/
def envAlreadyGone : RemoteOrderEnv :=
  { precheckGet := Except.error "Shopify API Error: 404 - not found",
    deleteReq := Except.ok (), verifyGet := Except.ok () }

/-- Remote environment where the DELETE itself throws a 404. -/
def env404 : RemoteOrderEnv :=
  { precheckGet := Except.ok (),
    deleteReq := Except.error "Shopify API Error: 404 - cannot delete",
    verifyGet := Except.ok () }


/-- Creation concurrency width (routes, line 750: BATCH_SIZE = 10). -/
def creationBatchSize : Nat := 10

/-- Deletion concurrency width (routes, line 955: BATCH_SIZE = 5). -/
def deletionBatchSize : Nat := 5

/-- Delay between deletion sub-waves (routes, line 992: 200 ms). -/
def interWaveDelayMs : Nat := 200

/-- Validity filter on recorded orders of DELETE /api/batches/:id
(routes, lines 956-958): the entry must carry a truthy id; failure
entries have none, and a numeric id 0 is falsy. -/
def hasValidId : OrderResult → Bool
  | .success oid => decide (¬ oid = 0)
  | .failure _ _ => false

/-- Successive slices of width `w` taken by the deletion loop
(routes, lines 962-963); the fuel argument bounds the number of loop
iterations by the list length. -/
def chunksOfAux {α : Type} (w : Nat) : Nat → List α → List (List α)
  | 0, _ => []
  | _ + 1, [] => []
  | fuel + 1, x :: xs => (x :: xs).take w :: chunksOfAux w fuel ((x :: xs).drop w)

/-- The deletion sub-waves: slices `[i, i + w)` of the valid orders. -/
def chunksOf {α : Type} (w : Nat) (l : List α) : List (List α) :=
  chunksOfAux w l.length l

/-- Counter update per settled deletion (routes, lines 982-988):
a resolved delete increments deletedCount, a rejected one failedCount. -/
def deletionStep (delOk : OrderResult → Bool) (acc : Nat × Nat)
    (r : OrderResult) : Nat × Nat :=
  if delOk r then (acc.1 + 1, acc.2) else (acc.1, acc.2 + 1)

/-- Folding the deletion counters over all sub-waves, each sub-wave
fully settled before the next (Promise.all per sub-wave). -/
def countDeletions (delOk : OrderResult → Bool)
    (chunks : List (List OrderResult)) : Nat × Nat :=
  chunks.foldl (fun acc chunk => chunk.foldl (deletionStep delOk) acc) (0, 0)

/-- shopifyDeletionResults of DELETE /api/batches/:id with purge
(routes, lines 948-999): count settled deletions over the valid orders
in sub-waves, then add the invalid orders to failedCount (line 997). -/
def shopifyDeletionResults (orders : List OrderResult)
    (delOk : OrderResult → Bool) : Nat × Nat :=
  (((countDeletions delOk (chunksOf deletionBatchSize (orders.filter hasValidId)))).1,
   ((countDeletions delOk (chunksOf deletionBatchSize (orders.filter hasValidId)))).2
     + (orders.length - (orders.filter hasValidId).length))

/-- Events of one run of the purge-and-delete endpoint. -/
inductive DelEvent where
  | remote (r : OrderResult)
  | localDelete
deriving DecidableEq, Repr

/-- Event trace of DELETE /api/batches/:id with purge: the remote
deletion attempts sub-wave by sub-wave, then the local batch record
deletion (routes, line 1004) after every attempt has settled. -/
def deleteBatchTrace (orders : List OrderResult) : List DelEvent :=
  ((chunksOf deletionBatchSize (orders.filter hasValidId)).map
    (fun c => c.map DelEvent.remote)).flatten ++ [DelEvent.localDelete]

/-- Recorded orders of a batch to purge: five valid entries, one failure
entry and one entry with a falsy id. -/
def orders6 : List OrderResult :=
  [OrderResult.success 1, OrderResult.success 2, OrderResult.failure "m" 3,
   OrderResult.success 4, OrderResult.success 0, OrderResult.success 6,
   OrderResult.success 7]

/-- Deletion oracle under which only the order with remote id 4 fails. -/
def delOk6 : OrderResult → Bool := fun r => decide (¬ r = OrderResult.success 4)

/-- State of the module-level product cache of shopify.ts (line 506)
for one SKU: whether the SKU is present in the Map, and how many remote
searchProductBySku calls have been issued. -/
structure CacheState where
  cached : Bool
  lookups : Nat
deriving DecidableEq, Repr

/-- Progress of one caller resolving the SKU through
createShopifyOrderFromConfig (shopify.ts, lines 557-596): idle before
its `productCache.has` check; fetching between its awaited
searchProductBySku call and its `productCache.set`; finished after. -/
inductive FetchPhase where
  | idle
  | fetching
  | finished
deriving DecidableEq, Repr

/-- One atomic step of a caller: an idle caller checks the cache and
either finishes on a hit or issues the remote lookup (there is no
per-key in-flight guard); a fetching caller receives its response and
writes the cache. -/
def stepResolve (s : CacheState) (p : FetchPhase) : CacheState × FetchPhase :=
  match p with
  | .idle =>
      if s.cached then (s, .finished)
      else ({ s with lookups := s.lookups + 1 }, .fetching)
  | .fetching => ({ s with cached := true }, .finished)
  | .finished => (s, .finished)

/-- Run an interleaving: the schedule lists which caller takes the next
step; out-of-range entries are skipped. -/
def runSched (sched : List Nat) (st : CacheState) (tasks : List FetchPhase) :
    CacheState × List FetchPhase :=
  match sched with
  | [] => (st, tasks)
  | t :: rest =>
      match tasks[t]? with
      | none => runSched rest st tasks
      | some p => runSched rest (stepResolve st p).1 (tasks.set t (stepResolve st p).2)

/-- Number of callers still before their cache check. -/
def countIdle (tasks : List FetchPhase) : Nat :=
  tasks.countP fun p => decide (p = FetchPhase.idle)


/-- Claim C1: the status reconciliation finalizing a batch follows the
truth table of the spec: cancelled with no success gives failed
"Cancelled by user"; cancelled with successes gives partial
"Cancelled by user - s of N orders created"; no cancellation and full
success gives completed with no message; no cancellation, no success and
some failure gives failed "All orders failed to create"; no cancellation
with some but not all successes and some failure gives partial
"s of N orders created successfully"; and the status is always one of
completed, failed, partial. -/
theorem reconcile_matches_table (N s f : Nat) (c : Bool) (hN : 1 ≤ N) :
    (c = true → s = 0 → reconcile N s f c = ("failed", some "Cancelled by user")) ∧
    (c = true → 0 < s → reconcile N s f c =
      ("partial", some ("Cancelled by user - " ++ toString s ++ " of "
        ++ toString N ++ " orders created"))) ∧
    (c = false → f = 0 → s = N → reconcile N s f c = ("completed", none)) ∧
    (c = false → s = 0 → 0 < f → reconcile N s f c =
      ("failed", some "All orders failed to create")) ∧
    (c = false → 0 < s → s < N → 0 < f → reconcile N s f c =
      ("partial", some (toString s ++ " of " ++ toString N
        ++ " orders created successfully"))) ∧
    ((reconcile N s f c).1 = "completed" ∨ (reconcile N s f c).1 = "failed" ∨
      (reconcile N s f c).1 = "partial") := by
  refine ⟨?_, ?_, ?_, ?_, ?_, ?_⟩
  · intro hc hs; subst hc; subst hs; simp [reconcile]
  · intro hc hs; subst hc; simp [reconcile, Nat.pos_iff_ne_zero.mp hs]
  · intro hc hf hs; subst hc; subst hf; subst hs; simp [reconcile]
  · intro hc hs hf; subst hc; subst hs
    simp [reconcile, hf]
  · intro hc hs hsN hf; subst hc
    simp [reconcile, hf, Nat.pos_iff_ne_zero.mp hs, hsN, Nat.not_lt.mpr (Nat.le_of_lt hsN)]
  · unfold reconcile
    rcases c with _ | _ <;> simp only [Bool.false_eq_true, if_false, if_true] <;>
      (repeat' split) <;> simp

/-- Closed instances of claim C1 obtained from `reconcile_matches_table`
at concrete inputs, one per row of the table. -/
theorem reconcile_matches_table_witness :
    reconcile 5 0 2 true = ("failed", some "Cancelled by user") ∧
    reconcile 5 2 0 true = ("partial", some "Cancelled by user - 2 of 5 orders created") ∧
    reconcile 5 5 0 false = ("completed", none) ∧
    reconcile 5 0 5 false = ("failed", some "All orders failed to create") ∧
    reconcile 5 2 3 false = ("partial", some "2 of 5 orders created successfully") := by
  refine ⟨?_, ?_, ?_, ?_, ?_⟩
  · exact (reconcile_matches_table 5 0 2 true (by decide)).1 rfl rfl
  · exact (reconcile_matches_table 5 2 0 true (by decide)).2.1 rfl (by decide)
  · exact (reconcile_matches_table 5 5 0 false (by decide)).2.2.1 rfl rfl rfl
  · exact (reconcile_matches_table 5 0 5 false (by decide)).2.2.2.1 rfl rfl (by decide)
  · exact (reconcile_matches_table 5 2 3 false (by decide)).2.2.2.2.1 rfl (by decide)
      (by decide) (by decide)

theorem jsRound100_mono {a b : Nat} (n : Nat) (h : a ≤ b) :
    jsRound100 a n ≤ jsRound100 b n :=
  Nat.div_le_div_right (by omega)

theorem jsRound100_self {n : Nat} (h : 1 ≤ n) : jsRound100 n n = 100 := by
  unfold jsRound100
  have h1 : 200 * n + n = n + 2 * n * 100 := by ring
  rw [h1, Nat.add_mul_div_left _ _ (by omega), Nat.div_eq_of_lt (by omega)]

/-- Unfolding the wave loop at an active boundary: the re-read shows no
cancellation, so the wave runs and the loop continues. -/
theorem runWavesFrom_step (n : Nat) (o : Nat → Except String Nat) (c : Nat → Bool)
    (k : Nat) (h : k * 10 < n) (hc : c k = false) :
    runWavesFrom n o c k =
      (waveResults o (k * 10) (min (k * 10 + 10) n) ++ (runWavesFrom n o c (k + 1)).1,
       jsRound100 (min (k * 10 + 10) n) n :: (runWavesFrom n o c (k + 1)).2) := by
  conv_lhs => rw [runWavesFrom]
  rw [dif_pos h, hc]
  rfl

/-- Unfolding the wave loop at a boundary where the re-read observes the
cancellation sentinel: the loop breaks issuing nothing. -/
theorem runWavesFrom_stop (n : Nat) (o : Nat → Except String Nat) (c : Nat → Bool)
    (k : Nat) (h : k * 10 < n) (hc : c k = true) :
    runWavesFrom n o c k = ([], []) := by
  conv_lhs => rw [runWavesFrom]
  rw [dif_pos h, hc]
  rfl

/-- Unfolding the wave loop after the last wave: nothing more is issued. -/
theorem runWavesFrom_done (n : Nat) (o : Nat → Except String Nat) (c : Nat → Bool)
    (k : Nat) (h : ¬ k * 10 < n) :
    runWavesFrom n o c k = ([], []) := by
  conv_lhs => rw [runWavesFrom]
  rw [dif_neg h]

/-- Closed form of the issued orders under a cancellation write landing
during wave `w`: exactly the orders with index below
`min n ((w + 1) * 10)` are issued, in order. -/
theorem runWavesFrom_fst_closed (n : Nat) (o : Nat → Except String Nat) (w : Nat) :
    ∀ m k, n - k * 10 ≤ m →
      (runWavesFrom n o (cancelAfter w) k).1 =
        (List.range (min n ((w + 1) * 10) - k * 10)).map
          fun j => mkOrderResult o (k * 10 + j) := by
  intro m
  induction m with
  | zero =>
      intro k hk
      rw [runWavesFrom_done n o _ k (by omega)]
      have e1 := @Nat.min_def n ((w + 1) * 10)
      have hz : min n ((w + 1) * 10) - k * 10 = 0 := by
        split at e1 <;> omega
      rw [hz]
      simp
  | succ m ih =>
      intro k hk
      by_cases h : k * 10 < n
      · by_cases hw : w < k
        · rw [runWavesFrom_stop n o _ k h (by simp [cancelAfter, hw])]
          have e1 := @Nat.min_def n ((w + 1) * 10)
          have hz : min n ((w + 1) * 10) - k * 10 = 0 := by
            split at e1 <;> omega
          rw [hz]
          simp
        · rw [runWavesFrom_step n o _ k h (by simp [cancelAfter, hw])]
          have hrest := ih (k + 1) (by omega)
          simp only [hrest, waveResults]
          have e1 := @Nat.min_def n ((w + 1) * 10)
          have e2 := @Nat.min_def (k * 10 + 10) n
          have harith : min n ((w + 1) * 10) - k * 10 =
              (min (k * 10 + 10) n - k * 10) + (min n ((w + 1) * 10) - (k + 1) * 10) := by
            split at e1 <;> split at e2 <;> omega
          rw [harith, List.range_add, List.map_append, List.map_map]
          congr 1
          apply List.map_congr_left
          intro j hj
          have hjb := List.mem_range.mp hj
          simp only [Function.comp_apply]
          congr 1
          split at e1 <;> split at e2 <;> omega
      · rw [runWavesFrom_done n o _ k h]
        have e1 := @Nat.min_def n ((w + 1) * 10)
        have hz : min n ((w + 1) * 10) - k * 10 = 0 := by
          split at e1 <;> omega
        rw [hz]
        simp

/-- The wave loop depends on the cancellation oracle only at consulted
wave boundaries (those with `k * 10 < n`). -/
theorem runWavesFrom_congr (n : Nat) (o : Nat → Except String Nat)
    (c₁ c₂ : Nat → Bool) (hc : ∀ k, k * 10 < n → c₁ k = c₂ k) :
    ∀ m k, n - k * 10 ≤ m →
      runWavesFrom n o c₁ k = runWavesFrom n o c₂ k := by
  intro m
  induction m with
  | zero =>
      intro k hk
      rw [runWavesFrom_done n o c₁ k (by omega), runWavesFrom_done n o c₂ k (by omega)]
  | succ m ih =>
      intro k hk
      by_cases h : k * 10 < n
      · cases hck : c₁ k with
        | false =>
            rw [runWavesFrom_step n o c₁ k h hck,
              runWavesFrom_step n o c₂ k h (by rw [← hc k h]; exact hck),
              ih (k + 1) (by omega)]
        | true =>
            rw [runWavesFrom_stop n o c₁ k h hck,
              runWavesFrom_stop n o c₂ k h (by rw [← hc k h]; exact hck)]
      · rw [runWavesFrom_done n o c₁ k h, runWavesFrom_done n o c₂ k h]

/-- With no cancellation, the result list is exactly one entry per
requested order, in order. -/
theorem runWaves_fst_noCancel (n : Nat) (o : Nat → Except String Nat) :
    (runWaves n o noCancel).1 = (List.range n).map (mkOrderResult o) := by
  have hcongr : runWavesFrom n o noCancel 0 = runWavesFrom n o (cancelAfter n) 0 := by
    refine runWavesFrom_congr n o noCancel (cancelAfter n) ?_ n 0 (by omega)
    intro k hk
    have hkn : ¬ n < k := by
      have : k ≤ k * 10 := by omega
      omega
    simp [noCancel, cancelAfter, hkn]
  have hclosed := runWavesFrom_fst_closed n o n n 0 (by omega)
  have hmin : min n ((n + 1) * 10) = n := Nat.min_eq_left (by omega)
  rw [runWaves, hcongr, hclosed, hmin, Nat.sub_zero]
  apply List.map_congr_left
  intro j hj
  norm_num

/-- With no cancellation, the persisted progress sequence is
`round(batchEnd / n * 100)` for each wave, over `⌈n / 10⌉` waves. -/
theorem runWaves_snd_noCancel (n : Nat) (o : Nat → Except String Nat) :
    ∀ m k, n - k * 10 ≤ m →
      (runWavesFrom n o noCancel k).2 =
        (List.range ((n - k * 10 + 9) / 10)).map
          fun j => jsRound100 (min ((k + j) * 10 + 10) n) n := by
  intro m
  induction m with
  | zero =>
      intro k hk
      rw [runWavesFrom_done n o _ k (by omega)]
      have hz : (n - k * 10 + 9) / 10 = 0 := by omega
      rw [hz]
      simp
  | succ m ih =>
      intro k hk
      by_cases h : k * 10 < n
      · rw [runWavesFrom_step n o _ k h rfl]
        have hrest := ih (k + 1) (by omega)
        simp only [hrest]
        have hcnt : (n - k * 10 + 9) / 10 = ((n - (k + 1) * 10 + 9) / 10) + 1 := by omega
        rw [hcnt, List.range_succ_eq_map, List.map_cons, List.map_map]
        refine List.cons_eq_cons.mpr ⟨by norm_num, ?_⟩
        apply List.map_congr_left
        intro j hj
        have harg : (k + 1 + j) * 10 + 10 = (k + (j + 1)) * 10 + 10 := by ring
        simp only [Function.comp_apply, Nat.succ_eq_add_one, harg]
      · rw [runWavesFrom_done n o _ k h]
        have hz : (n - k * 10 + 9) / 10 = 0 := by omega
        rw [hz]
        simp

/-- Claim C2: during a creation run, every throwing create-order call is
caught in its own task and becomes a failure entry with the 1-based
order index, aborting neither its wave siblings nor the batch: the
result list always has one entry per requested order, failures exactly
at the throwing indices. In the ten-order scenario where only order 7
throws, the final list holds exactly one failure entry, with orderIndex
7, and the batch finalizes as partial with message
"9 of 10 orders created successfully". -/
theorem per_order_failures_isolated (n : Nat) (o : Nat → Except String Nat) :
    (runWaves n o noCancel).1.length = n ∧
    (∀ i m, i < n → o i = Except.error m →
      ((runWaves n o noCancel).1)[i]? = some (OrderResult.failure
        ("Failed to create order " ++ toString (i + 1) ++ ": " ++ m) (i + 1))) ∧
    (∀ i oid, i < n → o i = Except.ok oid →
      ((runWaves n o noCancel).1)[i]? = some (OrderResult.success oid)) ∧
    (runWaves 10 throwAt7 noCancel).1.filter OrderResult.isErr =
      [OrderResult.failure "Failed to create order 7: Network error" 7] ∧
    ((runWaves 10 throwAt7 noCancel).1.filter fun r => !r.isErr).length = 9 ∧
    reconcile 10 9 1 false =
      ("partial", some "9 of 10 orders created successfully") := by
  refine ⟨?_, ?_, ?_, ?_, ?_, ?_⟩
  · rw [runWaves_fst_noCancel]
    simp
  · intro i m hi hoi
    rw [runWaves_fst_noCancel, List.getElem?_map, List.getElem?_range hi]
    simp [mkOrderResult, hoi]
  · intro i oid hi hoi
    rw [runWaves_fst_noCancel, List.getElem?_map, List.getElem?_range hi]
    simp [mkOrderResult, hoi]
  · rw [runWaves_fst_noCancel]
    decide
  · rw [runWaves_fst_noCancel]
    decide
  · decide

/-- Closed instance of claim C2 from `per_order_failures_isolated` at the
ten-order scenario: the throwing seventh order yields the failure entry
with orderIndex 7 at position 6 of the result list. -/
theorem per_order_failures_isolated_witness :
    (6 < 10 ∧ throwAt7 6 = Except.error "Network error") ∧
    ((runWaves 10 throwAt7 noCancel).1)[6]? = some (OrderResult.failure
      ("Failed to create order " ++ toString (6 + 1) ++ ": " ++ "Network error") (6 + 1)) :=
  ⟨⟨by decide, rfl⟩,
    (per_order_failures_isolated 10 throwAt7).2.1 6 "Network error" (by decide) rfl⟩

/-- With no cancellation, the persisted progress values, one per wave. -/
theorem runWaves_snd (n : Nat) (o : Nat → Except String Nat) :
    (runWaves n o noCancel).2 =
      (List.range (waveCount n)).map fun k => jsRound100 (min (k * 10 + 10) n) n := by
  have h := runWaves_snd_noCancel n o n 0 (by omega)
  rw [runWaves, h]
  simp only [Nat.zero_mul, Nat.sub_zero, Nat.zero_add, waveCount]

/-- Claim C3: a creation run partitions the orders into waves of width
10 with a smaller final wave (25 orders give waves of 10, 10 and 5);
after each wave the persisted progress is
`round(attempted / n * 100)` over the orders attempted so far; the
persisted progress sequence is non-decreasing and ends at 100. -/
theorem wave_partition_progress (n : Nat) (o : Nat → Except String Nat) (hn : 1 ≤ n) :
    waveCount 25 = 3 ∧ waveSizes 25 = [10, 10, 5] ∧
    (runWaves n o noCancel).2 =
      (List.range (waveCount n)).map (fun k => jsRound100 (min (k * 10 + 10) n) n) ∧
    List.Pairwise (· ≤ ·) ((runWaves n o noCancel).2) ∧
    ((runWaves n o noCancel).2).getLast? = some 100 := by
  refine ⟨by decide, by decide, runWaves_snd n o, ?_, ?_⟩
  · rw [runWaves_snd]
    refine List.Pairwise.map _ ?_ (List.pairwise_lt_range _)
    intro a b hab
    exact jsRound100_mono n (min_le_min (by omega) (le_refl n))
  · rw [runWaves_snd, List.getLast?_eq_getElem?]
    have hW : 1 ≤ waveCount n := by unfold waveCount; omega
    have hlen : ((List.range (waveCount n)).map
        (fun k => jsRound100 (min (k * 10 + 10) n) n)).length = waveCount n := by
      simp
    rw [hlen, List.getElem?_map, List.getElem?_range (by omega)]
    have hmin : min ((waveCount n - 1) * 10 + 10) n = n := by
      have hge : n ≤ (waveCount n - 1) * 10 + 10 := by unfold waveCount; omega
      exact Nat.min_eq_right hge
    simp [hmin, jsRound100_self hn]

/-- Closed instance of claim C3 from `wave_partition_progress` at the
25-order scenario of the spec. -/
theorem wave_partition_progress_witness :
    1 ≤ 25 ∧
    (waveCount 25 = 3 ∧ waveSizes 25 = [10, 10, 5] ∧
     (runWaves 25 allOk noCancel).2 =
       (List.range (waveCount 25)).map (fun k => jsRound100 (min (k * 10 + 10) 25) 25) ∧
     List.Pairwise (· ≤ ·) ((runWaves 25 allOk noCancel).2) ∧
     ((runWaves 25 allOk noCancel).2).getLast? = some 100) :=
  ⟨by decide, wave_partition_progress 25 allOk (by decide)⟩

/-- Claim C4: the batch record is re-read before each wave; once the
cancellation sentinel (status failed, message Cancelled by user) is
observed at a wave boundary no further create-order calls are issued.
With the cancellation write landing during wave `w`, the issued orders
are exactly those of waves `0..w` (indices below `min n ((w + 1) * 10)`,
results preserved in order), so at most one wave width (10 orders)
starts after the write; the run then finalizes as partial when at least
one order succeeded, else failed. -/
theorem cancellation_bound (n : Nat) (o : Nat → Except String Nat) (w : Nat) :
    (runWaves n o (cancelAfter w)).1 =
      (List.range (min n ((w + 1) * 10))).map (mkOrderResult o) ∧
    min n ((w + 1) * 10) - min n (w * 10) ≤ 10 ∧
    (∀ s f, (reconcile n s f true).1 = if s = 0 then "failed" else "partial") := by
  refine ⟨?_, ?_, ?_⟩
  · have h := runWavesFrom_fst_closed n o w n 0 (by omega)
    rw [runWaves, h]
    simp only [Nat.zero_mul, Nat.zero_add, Nat.sub_zero]
  · have e1 := @Nat.min_def n ((w + 1) * 10)
    have e2 := @Nat.min_def n (w * 10)
    split at e1 <;> split at e2 <;> omega
  · intro s f
    by_cases hs : s = 0 <;> simp [reconcile, hs]

/-- Closed instance of claim C4 from `cancellation_bound`: 25 requested
orders, cancellation written during the first wave; only the 10 orders
of that wave are issued. -/
theorem cancellation_bound_witness :
    (runWaves 25 allOk (cancelAfter 0)).1 =
      (List.range (min 25 ((0 + 1) * 10))).map (mkOrderResult allOk) ∧
    min 25 ((0 + 1) * 10) - min 25 (0 * 10) ≤ 10 ∧
    (reconcile 25 10 0 true).1 = "partial" := by
  obtain ⟨h1, h2, h3⟩ := cancellation_bound 25 allOk 0
  exact ⟨h1, h2, h3 10 0⟩

/-- Counterexample to claim C5: the cancellation endpoint writes status
failed with the sentinel message onto a mid-run batch without touching
progress, so a batch reaches a status in the terminal set while its
progress stays below 100 (here 40). -/
theorem cancel_write_leaves_progress :
    (cancelOrderBatch sampleBatch).status = "failed" ∧
    (cancelOrderBatch sampleBatch).progress = 40 ∧
    ¬ (cancelOrderBatch sampleBatch).progress = 100 :=
  ⟨rfl, rfl, by decide⟩

/-- Claim C5 (amended): finalization through completeOrderBatch always
sets progress to 100 and stamps completedAt, whatever status it writes;
but the cancellation write sets status failed while leaving progress
unchanged, so between the cancel request and finalization a batch can
carry status failed with progress below 100. -/
theorem finalize_sets_progress_100 (b : OrderBatch) (co : List OrderResult)
    (em st : Option String) (now : Nat) :
    (completeOrderBatch b co em st now).progress = 100 ∧
    (completeOrderBatch b co em st now).completedAt = some now ∧
    (cancelOrderBatch b).progress = b.progress ∧
    (cancelOrderBatch b).status = "failed" ∧
    (cancelOrderBatch b).errorMessage = some "Cancelled by user" :=
  ⟨rfl, rfl, rfl, rfl, rfl⟩

/-- Claim C9: updateOrderBatchProgress is a field-level merge: it writes
progress, touches status only when a status argument is supplied, and
leaves every other field of the batch record unchanged. -/
theorem update_progress_frame (b : OrderBatch) (p : Nat) (st : Option String) :
    (updateOrderBatchProgress b p st).progress = p ∧
    (updateOrderBatchProgress b p st).id = b.id ∧
    (updateOrderBatchProgress b p st).batchId = b.batchId ∧
    (updateOrderBatchProgress b p st).configurationId = b.configurationId ∧
    (updateOrderBatchProgress b p st).orderCount = b.orderCount ∧
    (updateOrderBatchProgress b p st).errorMessage = b.errorMessage ∧
    (updateOrderBatchProgress b p st).createdOrders = b.createdOrders ∧
    (updateOrderBatchProgress b p st).createdAt = b.createdAt ∧
    (updateOrderBatchProgress b p st).completedAt = b.completedAt ∧
    (st = none → (updateOrderBatchProgress b p st).status = b.status) :=
  ⟨rfl, rfl, rfl, rfl, rfl, rfl, rfl, rfl, rfl, fun h => by subst h; rfl⟩

/-- Closed instance of claim C9 from `update_progress_frame`: a progress
write with no status argument on the sample batch. -/
theorem update_progress_frame_witness :
    (updateOrderBatchProgress sampleBatch 55 none).progress = 55 ∧
    (updateOrderBatchProgress sampleBatch 55 none).status = sampleBatch.status :=
  ⟨(update_progress_frame sampleBatch 55 none).1,
   (update_progress_frame sampleBatch 55 none).2.2.2.2.2.2.2.2.2 rfl⟩

/-- Claim C10: every batch created through POST /api/batches starts with
progress 0, errorMessage null, createdOrders null and completedAt null,
whatever the request body supplied: progress is stripped before
validation and MemStorage createOrderBatch overrides those fields after
spreading the insert record. -/
theorem create_batch_starts_clean (body : BatchRequestBody) (nid now : Nat)
    (batch : OrderBatch) (h : postBatches body nid now = some batch) :
    batch.progress = 0 ∧ batch.errorMessage = none ∧
    batch.createdOrders = none ∧ batch.completedAt = none := by
  unfold postBatches at h
  cases hp : parseInsertOrderBatch (stripProgress body) with
  | none => rw [hp] at h; exact absurd h (by simp)
  | some ins =>
      rw [hp] at h
      have hb : memCreateOrderBatch ins nid now = batch := by simpa using h
      subst hb
      exact ⟨rfl, rfl, rfl, rfl⟩

/-- Closed instance of claim C10 from `create_batch_starts_clean`: a
body carrying progress 55, an error message, results and a completion
timestamp still yields a clean pending batch. -/
theorem create_batch_starts_clean_witness :
    postBatches dirtyBody 1 0 = some (memCreateOrderBatch dirtyIns 1 0) ∧
    ((memCreateOrderBatch dirtyIns 1 0).progress = 0 ∧
     (memCreateOrderBatch dirtyIns 1 0).errorMessage = none ∧
     (memCreateOrderBatch dirtyIns 1 0).createdOrders = none ∧
     (memCreateOrderBatch dirtyIns 1 0).completedAt = none) :=
  ⟨by decide, create_batch_starts_clean dirtyBody 1 0 _ (by decide)⟩

/-- Claim C8: deleteOrder answers success whenever the remote order is
already gone: a failing existence pre-check returns success with an
already-deleted note, and a DELETE that throws a 404-equivalent error is
caught and also returns success. -/
theorem delete_order_idempotent (orderId : String) (env : RemoteOrderEnv)
    (hid : ¬ jsTrim orderId = "") :
    (∀ e, env.precheckGet = Except.error e →
      deleteOrder orderId env =
        Except.ok ⟨true, "Order not found or already deleted"⟩) ∧
    (∀ e, env.precheckGet = Except.ok () → env.deleteReq = Except.error e →
      jsIncludes e "404" = true →
      deleteOrder orderId env = Except.ok ⟨true, "Order was already deleted"⟩) := by
  constructor
  · intro e h1
    simp [deleteOrder, deleteOrderInner, hid, h1]
  · intro e h1 h2 h404
    simp [deleteOrder, deleteOrderInner, hid, h1, h2, h404]

/-- Closed instance of claim C8 from `delete_order_idempotent`: both
already-gone paths on a concrete order id. -/
theorem delete_order_idempotent_witness :
    (¬ (jsTrim "5577" = "")) ∧
    deleteOrder "5577" envAlreadyGone =
      Except.ok ⟨true, "Order not found or already deleted"⟩ ∧
    deleteOrder "5577" env404 = Except.ok ⟨true, "Order was already deleted"⟩ :=
  ⟨by decide,
   (delete_order_idempotent "5577" envAlreadyGone (by decide)).1
     "Shopify API Error: 404 - not found" rfl,
   (delete_order_idempotent "5577" env404 (by decide)).2
     "Shopify API Error: 404 - cannot delete" rfl rfl (by decide)⟩

theorem chunksOfAux_mem_length_le {α : Type} (w : Nat) :
    ∀ fuel (l : List α) (c : List α), c ∈ chunksOfAux w fuel l → c.length ≤ w := by
  intro fuel
  induction fuel with
  | zero => intro l c hc; simp [chunksOfAux] at hc
  | succ fuel ih =>
      intro l c hc
      cases l with
      | nil => simp [chunksOfAux] at hc
      | cons x xs =>
          rw [chunksOfAux] at hc
          rcases List.mem_cons.mp hc with h | h
          · subst h
            simp
          · exact ih ((x :: xs).drop w) c h

theorem chunksOfAux_flatten {α : Type} (w : Nat) (hw : 0 < w) :
    ∀ fuel (l : List α), l.length ≤ fuel → (chunksOfAux w fuel l).flatten = l := by
  intro fuel
  induction fuel with
  | zero =>
      intro l hl
      have : l = [] := List.eq_nil_of_length_eq_zero (by omega)
      subst this
      rfl
  | succ fuel ih =>
      intro l hl
      cases l with
      | nil => rfl
      | cons x xs =>
          have hlen : ((x :: xs).drop w).length ≤ fuel := by
            rw [List.length_drop]
            simp only [List.length_cons] at hl ⊢
            omega
          rw [chunksOfAux, List.flatten_cons, ih ((x :: xs).drop w) hlen]
          exact List.take_append_drop w (x :: xs)

theorem foldl_deletionStep (delOk : OrderResult → Bool) :
    ∀ (chunk : List OrderResult) (acc : Nat × Nat),
      chunk.foldl (deletionStep delOk) acc =
        (acc.1 + (chunk.filter delOk).length,
         acc.2 + (chunk.filter (fun r => !delOk r)).length) := by
  intro chunk
  induction chunk with
  | nil => intro acc; simp
  | cons r t ih =>
      intro acc
      rw [List.foldl_cons, ih]
      cases hdel : delOk r <;>
        simp [deletionStep, hdel, List.filter_cons, Prod.ext_iff] <;> omega

theorem countDeletions_spec (delOk : OrderResult → Bool) :
    ∀ (chunks : List (List OrderResult)) (acc : Nat × Nat),
      chunks.foldl (fun acc chunk => chunk.foldl (deletionStep delOk) acc) acc =
        (acc.1 + (chunks.flatten.filter delOk).length,
         acc.2 + (chunks.flatten.filter (fun r => !delOk r)).length) := by
  intro chunks
  induction chunks with
  | nil => intro acc; simp
  | cons c cs ih =>
      intro acc
      rw [List.foldl_cons, ih, foldl_deletionStep]
      simp [List.filter_append, Prod.ext_iff]
      omega

/-- Claim C6: deleting a batch with the purge-remote flag processes the
recorded orders in sub-waves of width 5, smaller than the creation
width 10; every recorded order with an invalid or missing remote id, or
whose remote deletion rejects, is counted in failedCount without
aborting the rest; deletedCount plus failedCount equals the number of
recorded orders; and the local batch record is deleted only after every
remote deletion attempt has settled. -/
theorem bulk_deletion_accounting (orders : List OrderResult)
    (delOk : OrderResult → Bool) :
    (∀ c ∈ chunksOf deletionBatchSize (orders.filter hasValidId),
      c.length ≤ deletionBatchSize) ∧
    (chunksOf deletionBatchSize (orders.filter hasValidId)).flatten =
      orders.filter hasValidId ∧
    deletionBatchSize < creationBatchSize ∧
    (shopifyDeletionResults orders delOk).1 + (shopifyDeletionResults orders delOk).2 =
      orders.length ∧
    (shopifyDeletionResults orders delOk).2 =
      ((orders.filter hasValidId).filter (fun r => !delOk r)).length +
        (orders.length - (orders.filter hasValidId).length) ∧
    deleteBatchTrace orders =
      ((orders.filter hasValidId).map DelEvent.remote) ++ [DelEvent.localDelete] ∧
    (deleteBatchTrace orders).getLast? = some DelEvent.localDelete ∧
    DelEvent.localDelete ∉ (orders.filter hasValidId).map DelEvent.remote := by
  have hflat : (chunksOf deletionBatchSize (orders.filter hasValidId)).flatten =
      orders.filter hasValidId :=
    chunksOfAux_flatten deletionBatchSize (by decide) _ _ (Nat.le_refl _)
  have hcd : countDeletions delOk (chunksOf deletionBatchSize (orders.filter hasValidId)) =
      (((orders.filter hasValidId).filter delOk).length,
       ((orders.filter hasValidId).filter (fun r => !delOk r)).length) := by
    have hcounts := countDeletions_spec delOk
      (chunksOf deletionBatchSize (orders.filter hasValidId)) (0, 0)
    unfold countDeletions
    rw [hcounts, hflat]
    simp
  have hpart : ((orders.filter hasValidId).filter delOk).length +
      ((orders.filter hasValidId).filter (fun r => !delOk r)).length =
      (orders.filter hasValidId).length := by
    induction orders.filter hasValidId with
    | nil => rfl
    | cons r t iht =>
        cases hdel : delOk r <;> simp [List.filter_cons, hdel] <;> omega
  have hle : (orders.filter hasValidId).length ≤ orders.length :=
    List.length_filter_le hasValidId orders
  refine ⟨?_, hflat, by decide, ?_, ?_, ?_, ?_, ?_⟩
  · intro c hc
    exact chunksOfAux_mem_length_le deletionBatchSize _ _ c hc
  · unfold shopifyDeletionResults
    rw [hcd]
    omega
  · unfold shopifyDeletionResults
    rw [hcd]
  · unfold deleteBatchTrace
    rw [← List.map_flatten, hflat]
  · unfold deleteBatchTrace
    exact List.getLast?_concat _
  · intro hmem
    rcases List.mem_map.mp hmem with ⟨r, _, hr⟩
    exact DelEvent.noConfusion hr

/-- Closed instance of claim C6 from `bulk_deletion_accounting`: a batch
with seven recorded orders, of which five are valid, one deletion
rejects and two entries are invalid; 4 deleted + 3 failed = 7. -/
theorem bulk_deletion_accounting_witness :
    (orders6.filter hasValidId ∈
        chunksOf deletionBatchSize (orders6.filter hasValidId) ∧
      (orders6.filter hasValidId).length ≤ deletionBatchSize) ∧
    (shopifyDeletionResults orders6 delOk6).1 +
      (shopifyDeletionResults orders6 delOk6).2 = orders6.length :=
  ⟨⟨by decide, (bulk_deletion_accounting orders6 delOk6).1 _ (by decide)⟩,
   (bulk_deletion_accounting orders6 delOk6).2.2.2.1⟩

theorem runSched_cons_none (t : Nat) (rest : List Nat) (st : CacheState)
    (tasks : List FetchPhase) (ht : tasks[t]? = none) :
    runSched (t :: rest) st tasks = runSched rest st tasks := by
  simp [runSched, ht]

theorem runSched_cons_some (t : Nat) (rest : List Nat) (st : CacheState)
    (tasks : List FetchPhase) (p : FetchPhase) (ht : tasks[t]? = some p) :
    runSched (t :: rest) st tasks =
      runSched rest (stepResolve st p).1 (tasks.set t (stepResolve st p).2) := by
  simp [runSched, ht]

theorem countIdle_set (tasks : List FetchPhase) :
    ∀ (t : Nat) (p q : FetchPhase), tasks[t]? = some p →
      countIdle (tasks.set t q) + (if p = FetchPhase.idle then 1 else 0) =
        countIdle tasks + (if q = FetchPhase.idle then 1 else 0) := by
  induction tasks with
  | nil => intro t p q h; simp at h
  | cons x xs ih =>
      intro t p q h
      cases t with
      | zero =>
          simp only [List.getElem?_cons_zero, Option.some.injEq] at h
          subst h
          simp only [List.set_cons_zero, countIdle, List.countP_cons]
          by_cases hq : q = FetchPhase.idle <;> by_cases hx : x = FetchPhase.idle <;>
            simp [hq, hx]
      | succ t =>
          simp only [List.getElem?_cons_succ] at h
          have hrec := ih t p q h
          simp only [List.set_cons_succ, countIdle, List.countP_cons] at hrec ⊢
          omega

theorem runSched_lookups_le (sched : List Nat) :
    ∀ (st : CacheState) (tasks : List FetchPhase),
      (runSched sched st tasks).1.lookups + countIdle ((runSched sched st tasks).2) ≤
        st.lookups + countIdle tasks := by
  induction sched with
  | nil => intro st tasks; simp [runSched]
  | cons t rest ih =>
      intro st tasks
      cases ht : tasks[t]? with
      | none => rw [runSched_cons_none t rest st tasks ht]; exact ih st tasks
      | some p =>
          rw [runSched_cons_some t rest st tasks p ht]
          refine le_trans (ih _ _) ?_
          have hset := countIdle_set tasks t p (stepResolve st p).2 ht
          cases p with
          | idle =>
              by_cases hc : st.cached
              · simp [stepResolve, hc] at hset ⊢
                omega
              · simp [stepResolve, hc] at hset ⊢
                omega
          | fetching =>
              simp [stepResolve] at hset ⊢
              omega
          | finished =>
              simp [stepResolve] at hset ⊢
              omega

theorem runSched_cached (sched : List Nat) :
    ∀ (st : CacheState) (tasks : List FetchPhase), st.cached = true →
      (runSched sched st tasks).1.cached = true ∧
      (runSched sched st tasks).1.lookups = st.lookups := by
  induction sched with
  | nil => intro st tasks h; exact ⟨h, rfl⟩
  | cons t rest ih =>
      intro st tasks h
      obtain ⟨c, lk⟩ := st
      simp only at h
      subst h
      cases ht : tasks[t]? with
      | none => rw [runSched_cons_none t rest _ tasks ht]; exact ih ⟨true, lk⟩ tasks rfl
      | some p =>
          rw [runSched_cons_some t rest _ tasks p ht]
          have hstep : (stepResolve ⟨true, lk⟩ p).1 = ⟨true, lk⟩ := by
            cases p <;> rfl
          rw [hstep]
          exact ih ⟨true, lk⟩ _ rfl

/-- Counterexample to claim C7: the product cache is an unsynchronized
check-then-set around an awaited remote call; two concurrent callers of
the same SKU interleaved check-check-set-set both miss the cache, so
two remote searchProductBySku calls are issued, not exactly one. -/
theorem concurrent_same_sku_two_lookups :
    (runSched [0, 1, 0, 1] ⟨false, 0⟩ [FetchPhase.idle, FetchPhase.idle]).1.lookups = 2 ∧
    ¬ (runSched [0, 1, 0, 1] ⟨false, 0⟩
        [FetchPhase.idle, FetchPhase.idle]).1.lookups = 1 := by
  decide

/-- Claim C7 (amended): M concurrent callers resolving the same SKU can
each issue a remote lookup (at most one per caller, so at most M in
total, but not exactly one); and once the SKU has been resolved and
cached, any later resolution in the same process issues no remote
lookup, as in the sequential schedule where the second caller starts
after the first finished. -/
theorem cache_single_flight_amended :
    (∀ sched st tasks,
      (runSched sched st tasks).1.lookups ≤ st.lookups + countIdle tasks) ∧
    (∀ sched st tasks, st.cached = true →
      (runSched sched st tasks).1.lookups = st.lookups) ∧
    (runSched [0, 0, 1, 1] ⟨false, 0⟩ [FetchPhase.idle, FetchPhase.idle]).1.lookups = 1 := by
  refine ⟨?_, ?_, by decide⟩
  · intro sched st tasks
    have h := runSched_lookups_le sched st tasks
    omega
  · intro sched st tasks h
    exact (runSched_cached sched st tasks h).2

/-- Closed instance of the amended claim C7: a resolved cache entry
(lookup count 3) stays at 3 remote calls under any further schedule. -/
theorem cache_single_flight_amended_witness :
    ((⟨true, 3⟩ : CacheState).cached = true) ∧
    (runSched [0, 0] ⟨true, 3⟩ [FetchPhase.idle]).1.lookups =
      (⟨true, 3⟩ : CacheState).lookups :=
  ⟨rfl, cache_single_flight_amended.2.1 [0, 0] ⟨true, 3⟩ [FetchPhase.idle] rfl⟩

end OrderTool
